import Mathlib

/-!
Shallow embedding of `polynomial_tools` (src/src/lib.rs).

Floating-point coefficients (`f64`) are modelled by the type `F` below: a
rational value `F.fin q`, or one of the IEEE special values `F.nan`,
`F.inf` (+∞) and `F.ninf` (-∞).  Finite arithmetic is exact rational
arithmetic (rounding is abstracted away, as the spec brackets out
"native floating-point rounding"); the special values propagate as in
IEEE 754 (`∞ + -∞ = NaN`, `NaN` compares false under every order and
equality test, including `NaN == NaN`).  Negative zero is identified
with zero.
-/

namespace Ptools

/-- Model of an `f64` value: a finite rational or an IEEE special value. -/
inductive F where
  | fin (q : ℚ)
  | nan
  | inf
  | ninf
deriving DecidableEq, Repr

namespace F

/-- IEEE addition on the model (finite part exact). -/
def add : F → F → F
  | nan, _ => nan
  | _, nan => nan
  | inf, ninf => nan
  | ninf, inf => nan
  | inf, _ => inf
  | _, inf => inf
  | ninf, _ => ninf
  | _, ninf => ninf
  | fin a, fin b => fin (a + b)

/-- IEEE subtraction on the model (finite part exact). -/
def sub : F → F → F
  | nan, _ => nan
  | _, nan => nan
  | inf, inf => nan
  | ninf, ninf => nan
  | inf, _ => inf
  | _, inf => ninf
  | ninf, _ => ninf
  | _, ninf => inf
  | fin a, fin b => fin (a - b)

/-- IEEE negation. -/
def neg : F → F
  | fin a => fin (-a)
  | nan => nan
  | inf => ninf
  | ninf => inf

/-- IEEE division on the model (finite part exact; the model has no
negative zero, so `x / 0` takes the sign of `x` alone). -/
def div : F → F → F
  | nan, _ => nan
  | _, nan => nan
  | inf, inf => nan
  | inf, ninf => nan
  | ninf, inf => nan
  | ninf, ninf => nan
  | inf, fin b => if b < 0 then ninf else inf
  | ninf, fin b => if b < 0 then inf else ninf
  | fin _, inf => fin 0
  | fin _, ninf => fin 0
  | fin a, fin b =>
      if b = 0 then (if a = 0 then nan else if a < 0 then ninf else inf)
      else fin (a / b)

/-- `f64::abs`. -/
def abs : F → F
  | fin a => fin |a|
  | nan => nan
  | inf => inf
  | ninf => inf

/-- The `PartialEq` test `==` on `f64`: `NaN` is equal to nothing,
including itself. -/
def beq : F → F → Bool
  | fin a, fin b => a == b
  | inf, inf => true
  | ninf, ninf => true
  | _, _ => false

/-- The `PartialOrd` test `<` on `f64`: any comparison with `NaN` is
false. -/
def lt : F → F → Bool
  | fin a, fin b => a < b
  | fin _, inf => true
  | ninf, fin _ => true
  | ninf, inf => true
  | _, _ => false

/-- Rendering of an `f64` by Rust's `Display` (`format!("{}", v)`),
modelled up to the host language's numeral quirks: an integral value
prints as its integer, other rationals as `num/den` (the spec excludes
"numeric formatting quirks of the host language's default
float-to-string conversion" from its scope). -/
def fmt : F → String
  | fin q => if q.den = 1 then toString q.num else toString q.num ++ "/" ++ toString q.den
  | nan => "NaN"
  | inf => "inf"
  | ninf => "-inf"

end F

/-- Embeds `fn plus_minus(val: f64, string: String) -> String` (src/src/lib.rs:3). -/
def plus_minus (val : F) (string : String) : String :=
  if F.lt (F.fin 0) val then
    " + " ++ string
  else if F.lt val (F.fin 0) then
    " - " ++ string
  else
    string

/-- Embeds `fn signed_val(val: f64, suffix: String) -> String` (src/src/lib.rs:13). -/
def signed_val (val : F) (suffix : String) : String :=
  if F.beq (F.abs val) (F.fin 1) then
    plus_minus val suffix
  else if !(F.beq val (F.fin 0)) then
    let unsigned := F.fmt (F.abs val) ++ suffix
    plus_minus val unsigned
  else
    ""

/-- Embeds `fn s_val_last(val: f64) -> String` (src/src/lib.rs:24). -/
def s_val_last (val : F) : String :=
  if F.beq val (F.fin 0) then
    ""
  else
    plus_minus val (F.fmt (F.abs val))

/-- Embeds `fn display_header(val: f64, suffix: String) -> String` (src/src/lib.rs:31). -/
def display_header (val : F) (suffix : String) : String :=
  if F.beq val (F.fin 0) then
    ""
  else if F.beq val (F.fin 1) then
    suffix
  else
    F.fmt val ++ suffix

/-- Embeds `fn larger<T: PartialOrd>(first: T, second: T) -> T` (src/src/lib.rs:41),
at the instantiation `T = usize` used by `add`/`sub`. -/
def larger (first second : Nat) : Nat :=
  if first > second then first else second

/-- Embeds `fn inbounds<T>(index: usize, vec: &Vec<T>) -> bool` (src/src/lib.rs:49). -/
def inbounds (index : Nat) (vec : List F) : Bool :=
  index < vec.length

/-- Embeds `pub struct GeneralPolynomial { data: Vec<f64> }` (src/src/lib.rs:55). -/
structure GeneralPolynomial where
  data : List F
deriving DecidableEq, Repr

namespace GeneralPolynomial

/-- Embeds `GeneralPolynomial::new` (src/src/lib.rs:107). -/
def new (data : List F) : GeneralPolynomial :=
  { data := data }

/-- Embeds `GeneralPolynomial::new_i` (src/src/lib.rs:112): integer coefficients
converted losslessly. -/
def new_i (data : List Int) : GeneralPolynomial :=
  { data := data.map fun i => F.fin (i : ℚ) }

/-- One iteration of the `for i in 0..size` loop body shared by `add` and
`sub` (src/src/lib.rs:65-76 and 87-98): the three `inbounds` branches, in
source order, update `to_push`; when no branch fires `to_push` keeps the
value carried from the previous iteration. -/
def loop_body (op : F → F → F) (p q : List F) (to_push : F) (i : Nat) : F :=
  if inbounds i p && inbounds i q then
    op (p.getD i (F.fin 0)) (q.getD i (F.fin 0))
  else if inbounds i p && !(inbounds i q) then
    p.getD i (F.fin 0)
  else if inbounds i q && !(inbounds i p) then
    q.getD i (F.fin 0)
  else
    to_push

/-- The `for i in 0..size` loop of `add`/`sub`, pushing one value per
iteration; `n` counts the remaining iterations starting at index `i`,
`to_push` is the mutable variable carried across iterations
(initialised to `0.0` at src/src/lib.rs:64 and 86). -/
def run_loop (op : F → F → F) (p q : List F) : Nat → Nat → F → List F
  | _, 0, _ => []
  | i, n + 1, to_push =>
      let tp := loop_body op p q to_push i
      tp :: run_loop op p q (i + 1) n tp

/-- Embeds `impl std::ops::Add for GeneralPolynomial` (src/src/lib.rs:59-79). -/
def add (self other : GeneralPolynomial) : GeneralPolynomial :=
  new (run_loop F.add self.data other.data 0 (larger self.data.length other.data.length) (F.fin 0))

/-- Embeds `impl std::ops::Sub for GeneralPolynomial` (src/src/lib.rs:81-101). -/
def sub (self other : GeneralPolynomial) : GeneralPolynomial :=
  new (run_loop F.sub self.data other.data 0 (larger self.data.length other.data.length) (F.fin 0))

/-- The derived `PartialEq` on `GeneralPolynomial` (src/src/lib.rs:54):
componentwise `f64` equality, requiring equal lengths. -/
def beq (self other : GeneralPolynomial) : Bool :=
  go self.data other.data
where
  go : List F → List F → Bool
    | [], [] => true
    | a :: as_, b :: bs => F.beq a b && go as_ bs
    | _, _ => false

end GeneralPolynomial

/-! The `Polynomial` trait implementation for the bare scalar `f64`
(src/src/lib.rs:138-152). -/

namespace F

/-- Embeds `fn evaluate(&self, x: f64) -> f64` of `impl Polynomial for f64`
(src/src/lib.rs:140): a scalar evaluates to itself, ignoring `x`. -/
def evaluate (self : F) (_x : F) : F :=
  self

/-- Embeds `fn is_zero(&self) -> bool` of `impl Polynomial for f64`
(src/src/lib.rs:143): the `PartialEq` comparison `self == 0.0`. -/
def is_zero (self : F) : Bool :=
  F.beq self (F.fin 0)

/-- Embeds `fn degree(&self) -> u8` of `impl Polynomial for f64`
(src/src/lib.rs:146); the `u8` result is modelled as a natural number. -/
def degree (_self : F) : Nat :=
  0

/-- Embeds `fn derivative(&self) -> f64` of `impl Polynomial for f64`
(src/src/lib.rs:149): the constant `0.0`. -/
def derivative (_self : F) : F :=
  F.fin 0

end F

/-! The fixed-degree family.  The files `src/linear.rs`, `src/quadratic.rs`,
`src/cubic.rs` and `src/quartic.rs` are declared by `lib.rs`
(src/src/lib.rs:154-157) but are absent from the sources; the definitions
below are modelled from the spec (§4.2-§4.5), with the `f64` coefficients
modelled as exact rationals (the spec describes their arithmetic as exact
componentwise sums/differences). -/

/-- Modelled from the spec: `pub struct Linear` of the missing
`src/linear.rs` — "Linear: `{a, b}` represents `a·x + b`". -/
structure Linear where
  a : ℚ
  b : ℚ
deriving DecidableEq, Repr

namespace Linear

/-- Modelled from the spec: `Add` for `Linear` of the missing
`src/linear.rs` — "`add`/`sub` with another Linear: componentwise". -/
def add (self other : Linear) : Linear :=
  { a := self.a + other.a, b := self.b + other.b }

/-- Modelled from the spec: `Sub` for `Linear` of the missing
`src/linear.rs` — "`add`/`sub` with another Linear: componentwise". -/
def sub (self other : Linear) : Linear :=
  { a := self.a - other.a, b := self.b - other.b }

/-- Modelled from the spec: `Linear::root` of the missing `src/linear.rs` —
"returns the unique root `-b/a` when `a != 0`; signals a 'no solution'
condition when `a == 0` ... rather than dividing by zero". -/
def root (self : Linear) : Option ℚ :=
  if self.a = 0 then
    none
  else
    some (-self.b / self.a)

end Linear

/-- Modelled from the spec: `pub struct Quadratic` of the missing
`src/quadratic.rs` — "Quadratic: `{a, b, c}` represents `a·x² + b·x + c`". -/
structure Quadratic where
  a : ℚ
  b : ℚ
  c : ℚ
deriving DecidableEq, Repr

/-- Modelled from the spec (§7): the explicit degeneracy outcomes of
root-finding — "no solution" for a zero leading coefficient, "no real
roots" for a negative discriminant. -/
inductive RootErr where
  | noSolution
  | noRealRoots
deriving DecidableEq, Repr

namespace Quadratic

/-- Modelled from the spec: `Add` for `Quadratic` of the missing
`src/quadratic.rs` — "`add`/`sub` with Quadratic: componentwise". -/
def add (self other : Quadratic) : Quadratic :=
  { a := self.a + other.a, b := self.b + other.b, c := self.c + other.c }

/-- Modelled from the spec: `Sub` for `Quadratic` of the missing
`src/quadratic.rs` — "`add`/`sub` with Quadratic: componentwise". -/
def sub (self other : Quadratic) : Quadratic :=
  { a := self.a - other.a, b := self.b - other.b, c := self.c - other.c }

/-- The discriminant `b² - 4ac` of the spec (§4.3). -/
def disc (self : Quadratic) : ℚ :=
  self.b ^ 2 - 4 * self.a * self.c

/-- Modelled from the spec: `Quadratic::roots` of the missing
`src/quadratic.rs` — "solves `a·x² + b·x + c = 0` via the quadratic
formula. ... If discriminant < 0, signals 'no real roots'. ... Roots
returned as `[(-b + √disc)/(2a), (-b - √disc)/(2a)]`. ... Division by
`a == 0` must be guarded and signaled as degenerate". -/
noncomputable def roots (self : Quadratic) : Except RootErr (ℝ × ℝ) :=
  if self.a = 0 then
    .error .noSolution
  else if self.disc < 0 then
    .error .noRealRoots
  else
    .ok (((-self.b + Real.sqrt self.disc) / (2 * self.a),
          (-self.b - Real.sqrt self.disc) / (2 * self.a)))

end Quadratic

/-- Modelled from the spec: `pub struct Cubic` of the missing
`src/cubic.rs` (field names as in the test fixture at src/src/lib.rs:394). -/
structure Cubic where
  a : ℚ
  b : ℚ
  c : ℚ
  d : ℚ
deriving DecidableEq, Repr

namespace Cubic

/-- Modelled from the spec: `Add` for `Cubic` of the missing `src/cubic.rs`
— same-degree addition is componentwise (§4.4). -/
def add (self other : Cubic) : Cubic :=
  { a := self.a + other.a, b := self.b + other.b,
    c := self.c + other.c, d := self.d + other.d }

/-- Modelled from the spec: `Sub` for `Cubic` of the missing `src/cubic.rs`
— same-degree subtraction is componentwise (§4.4). -/
def sub (self other : Cubic) : Cubic :=
  { a := self.a - other.a, b := self.b - other.b,
    c := self.c - other.c, d := self.d - other.d }

end Cubic

/-- Modelled from the spec: `pub struct Quartic` of the missing
`src/quartic.rs` (field names as in the test fixture at src/src/lib.rs:507). -/
structure Quartic where
  a : ℚ
  b : ℚ
  c : ℚ
  d : ℚ
  e : ℚ
deriving DecidableEq, Repr

namespace Quartic

/-- Modelled from the spec: `Add` for `Quartic` of the missing
`src/quartic.rs` — "`add`/`sub` with Quartic ...: componentwise" (§4.5). -/
def add (self other : Quartic) : Quartic :=
  { a := self.a + other.a, b := self.b + other.b, c := self.c + other.c,
    d := self.d + other.d, e := self.e + other.e }

/-- Modelled from the spec: `Sub` for `Quartic` of the missing
`src/quartic.rs` — "`add`/`sub` with Quartic ...: componentwise" (§4.5). -/
def sub (self other : Quartic) : Quartic :=
  { a := self.a - other.a, b := self.b - other.b, c := self.c - other.c,
    d := self.d - other.d, e := self.e - other.e }

end Quartic


/-! Helper lemmas. -/

theorem F.add_fin_zero (x : F) : F.add x (F.fin 0) = x := by
  cases x <;> simp [F.add]

theorem F.fin_zero_add (x : F) : F.add (F.fin 0) x = x := by
  cases x <;> simp [F.add]

theorem F.add_comm_val (x y : F) : F.add x y = F.add y x := by
  cases x <;> cases y <;> simp [F.add, add_comm]

theorem F.beq_fin_iff (x : F) (c : ℚ) : F.beq x (F.fin c) = true ↔ x = F.fin c := by
  cases x <;> simp [F.beq]

theorem F.beq_refl_of_ne_nan (x : F) (h : x ≠ F.nan) : F.beq x x = true := by
  cases x <;> simp [F.beq] at h ⊢

theorem larger_eq_max (a b : Nat) : larger a b = max a b := by
  unfold larger
  split <;> omega


theorem run_loop_length (op : F → F → F) (p q : List F) :
    ∀ (n i : Nat) (tp : F), (GeneralPolynomial.run_loop op p q i n tp).length = n := by
  intro n
  induction n with
  | zero => intro i tp; rfl
  | succ m ih =>
      intro i tp
      simp [GeneralPolynomial.run_loop, ih]

theorem run_loop_getD (op : F → F → F) (p q : List F) :
    ∀ (n i : Nat) (tp : F) (j : Nat), j < n →
      (i + j < p.length ∨ i + j < q.length) →
      (GeneralPolynomial.run_loop op p q i n tp).getD j (F.fin 0) =
        (if i + j < p.length then
          (if i + j < q.length then
            op (p.getD (i + j) (F.fin 0)) (q.getD (i + j) (F.fin 0))
          else p.getD (i + j) (F.fin 0))
        else q.getD (i + j) (F.fin 0)) := by
  intro n
  induction n with
  | zero => intro i tp j hj; omega
  | succ m ih =>
      intro i tp j hj hin
      match j with
      | 0 =>
          simp only [GeneralPolynomial.run_loop, List.getD_cons_zero]
          simp only [GeneralPolynomial.loop_body, inbounds, Nat.add_zero] at hin ⊢
          by_cases hp : i < p.length <;> by_cases hq : i < q.length <;>
            (simp [hp, hq]; try omega)
      | j' + 1 =>
          simp only [GeneralPolynomial.run_loop, List.getD_cons_succ]
          have h1 : i + (j' + 1) = (i + 1) + j' := by omega
          rw [h1] at hin ⊢
          exact ih (i + 1) _ j' (by omega) hin


theorem loop_body_comm (p q : List F) (tp : F) (i : Nat) :
    GeneralPolynomial.loop_body F.add p q tp i = GeneralPolynomial.loop_body F.add q p tp i := by
  by_cases hp : i < p.length <;> by_cases hq : i < q.length <;>
    simp [GeneralPolynomial.loop_body, inbounds, hp, hq, F.add_comm_val]

theorem run_loop_comm (p q : List F) :
    ∀ (n i : Nat) (tp : F),
      GeneralPolynomial.run_loop F.add p q i n tp = GeneralPolynomial.run_loop F.add q p i n tp := by
  intro n
  induction n with
  | zero => intro i tp; rfl
  | succ m ih =>
      intro i tp
      simp only [GeneralPolynomial.run_loop]
      rw [loop_body_comm]
      rw [ih]

theorem gp_add_commutes (P Q : GeneralPolynomial) :
    GeneralPolynomial.add P Q = GeneralPolynomial.add Q P := by
  unfold GeneralPolynomial.add
  rw [larger_eq_max, larger_eq_max, Nat.max_comm, run_loop_comm]

theorem beq_go_refl : ∀ (l : List F), F.nan ∉ l → GeneralPolynomial.beq.go l l = true := by
  intro l hl
  induction l with
  | nil => rfl
  | cons x xs ih =>
      simp only [List.mem_cons, not_or] at hl
      simp [GeneralPolynomial.beq.go, F.beq_refl_of_ne_nan x (Ne.symm hl.1), ih hl.2]

theorem gp_beq_refl (g : GeneralPolynomial) (h : F.nan ∉ g.data) :
    GeneralPolynomial.beq g g = true :=
  beq_go_refl g.data h


/-- C1: `GeneralPolynomial::sub` does not zero-pad the shorter left
operand: at an index where only the right operand has a coefficient, the
result copies that coefficient unnegated (`{1} - {0, 2}` yields `{1, 2}`
although `0 - 2 = -2 ≠ 2`). -/
theorem generalPolynomial_sub_trailing_bug :
    GeneralPolynomial.sub (GeneralPolynomial.new [F.fin 1]) (GeneralPolynomial.new [F.fin 0, F.fin 2]) =
      GeneralPolynomial.new [F.fin 1, F.fin 2] ∧
    F.sub (F.fin 0) (F.fin 2) = F.fin (-2) ∧
    F.fin (-2) ≠ F.fin 2 := by
  refine ⟨?_, ?_, ?_⟩
  · norm_num [GeneralPolynomial.sub, GeneralPolynomial.new, GeneralPolynomial.run_loop,
      GeneralPolynomial.loop_body, larger, inbounds, F.sub]
  · norm_num [F.sub]
  · norm_num

/-- C3: `GeneralPolynomial::add` is pairwise over the longer operand's
length with the shorter operand zero-padded, the result's length is the
longer operand's length, and the reference scenario
`{-2,-3,0,4,6} + {0,4,-4.6,16} = {-2,1,-4.6,20,6}` holds. -/
theorem generalPolynomial_add_spec (P Q : GeneralPolynomial) :
    (GeneralPolynomial.add P Q).data.length = larger P.data.length Q.data.length ∧
    (∀ i : Nat, i < larger P.data.length Q.data.length →
      (GeneralPolynomial.add P Q).data.getD i (F.fin 0) =
        F.add (P.data.getD i (F.fin 0)) (Q.data.getD i (F.fin 0))) ∧
    GeneralPolynomial.add
        (GeneralPolynomial.new [F.fin (-2), F.fin (-3), F.fin 0, F.fin 4, F.fin 6])
        (GeneralPolynomial.new [F.fin 0, F.fin 4, F.fin (-23/5), F.fin 16]) =
      GeneralPolynomial.new [F.fin (-2), F.fin 1, F.fin (-23/5), F.fin 20, F.fin 6] := by
  refine ⟨?_, ?_, ?_⟩
  · simp [GeneralPolynomial.add, GeneralPolynomial.new, run_loop_length]
  · intro i hi
    rw [larger_eq_max] at hi
    have h := run_loop_getD F.add P.data Q.data
      (larger P.data.length Q.data.length) 0 (F.fin 0) i
      (by rw [larger_eq_max]; omega) (by omega)
    simp only [Nat.zero_add] at h
    have hdata : (GeneralPolynomial.add P Q).data =
        GeneralPolynomial.run_loop F.add P.data Q.data 0
          (larger P.data.length Q.data.length) (F.fin 0) := rfl
    rw [hdata, h]
    by_cases hp : i < P.data.length <;> by_cases hq : i < Q.data.length
    · rw [if_pos hp, if_pos hq]
    · rw [if_pos hp, if_neg hq,
        List.getD_eq_default Q.data (F.fin 0) (show Q.data.length ≤ i by omega), F.add_fin_zero]
    · rw [if_neg hp,
        List.getD_eq_default P.data (F.fin 0) (show P.data.length ≤ i by omega), F.fin_zero_add]
    · omega
  · norm_num [GeneralPolynomial.add, GeneralPolynomial.new, GeneralPolynomial.run_loop,
      GeneralPolynomial.loop_body, larger, inbounds, F.add]

/-- Witness for C3 at `P = {5}`, `Q = {}`, `i = 0`. -/
theorem generalPolynomial_add_spec_witness :
    0 < larger (GeneralPolynomial.new [F.fin 5]).data.length (GeneralPolynomial.new []).data.length ∧
    (GeneralPolynomial.add (GeneralPolynomial.new [F.fin 5]) (GeneralPolynomial.new [])).data.getD 0 (F.fin 0) =
      F.add ((GeneralPolynomial.new [F.fin 5]).data.getD 0 (F.fin 0))
        ((GeneralPolynomial.new []).data.getD 0 (F.fin 0)) :=
  ⟨by decide, (generalPolynomial_add_spec (GeneralPolynomial.new [F.fin 5]) (GeneralPolynomial.new [])).2.1 0 (by decide)⟩

/-- C10 (amended): `GeneralPolynomial` addition is commutative — the two
sums are structurally identical for every pair, and they compare equal
under the derived `PartialEq` whenever no coefficient of the sum is `NaN`
(in particular whenever no input coefficient is `NaN` and no index adds
`+∞` to `-∞`). -/
theorem generalPolynomial_add_comm (P Q : GeneralPolynomial) :
    GeneralPolynomial.add P Q = GeneralPolynomial.add Q P ∧
    (F.nan ∉ (GeneralPolynomial.add P Q).data →
      GeneralPolynomial.beq (GeneralPolynomial.add P Q) (GeneralPolynomial.add Q P) = true) := by
  refine ⟨gp_add_commutes P Q, ?_⟩
  intro h
  have hc := gp_add_commutes P Q
  rw [← hc]
  exact gp_beq_refl _ h

/-- Counterexample to C10 as stated: `{+∞} + {-∞}` has no `NaN`
coefficient on either side, yet the sums do not compare equal under the
derived `PartialEq` (the sum's coefficient is `NaN`, and `NaN == NaN` is
false). -/
theorem generalPolynomial_add_comm_cex :
    (F.inf ≠ F.nan ∧ F.ninf ≠ F.nan) ∧
    GeneralPolynomial.beq
      (GeneralPolynomial.add (GeneralPolynomial.new [F.inf]) (GeneralPolynomial.new [F.ninf]))
      (GeneralPolynomial.add (GeneralPolynomial.new [F.ninf]) (GeneralPolynomial.new [F.inf])) = false := by
  exact ⟨⟨by decide, by decide⟩, by rfl⟩

/-- Witness for C10 at `P = {1}`, `Q = {2}`. -/
theorem generalPolynomial_add_comm_witness :
    F.nan ∉ (GeneralPolynomial.add (GeneralPolynomial.new [F.fin 1]) (GeneralPolynomial.new [F.fin 2])).data ∧
    GeneralPolynomial.beq
      (GeneralPolynomial.add (GeneralPolynomial.new [F.fin 1]) (GeneralPolynomial.new [F.fin 2]))
      (GeneralPolynomial.add (GeneralPolynomial.new [F.fin 2]) (GeneralPolynomial.new [F.fin 1])) = true := by
  have hn : F.nan ∉ (GeneralPolynomial.add (GeneralPolynomial.new [F.fin 1]) (GeneralPolynomial.new [F.fin 2])).data := by
    decide
  exact ⟨hn, (generalPolynomial_add_comm (GeneralPolynomial.new [F.fin 1]) (GeneralPolynomial.new [F.fin 2])).2 hn⟩


theorem F.beq_fin_true {x : F} {c : ℚ} (h : x = F.fin c) : F.beq x (F.fin c) = true :=
  (F.beq_fin_iff x c).mpr h

theorem F.beq_fin_false {x : F} {c : ℚ} (h : x ≠ F.fin c) : F.beq x (F.fin c) = false := by
  cases hb : F.beq x (F.fin c)
  · rfl
  · exact absurd ((F.beq_fin_iff x c).mp hb) h

theorem F.lt_asymm_val {x y : F} (h : F.lt x y = true) : F.lt y x = false := by
  cases x <;> cases y <;> simp [F.lt] at h ⊢
  exact le_of_lt h

theorem F.pos_ne_zero {x : F} (h : F.lt (F.fin 0) x = true) : x ≠ F.fin 0 := by
  intro he
  subst he
  simp [F.lt] at h

theorem F.neg_ne_zero {x : F} (h : F.lt x (F.fin 0) = true) : x ≠ F.fin 0 := by
  intro he
  subst he
  simp [F.lt] at h

theorem plus_minus_pos (val : F) (s : String) (h : F.lt (F.fin 0) val = true) :
    plus_minus val s = " + " ++ s := by
  unfold plus_minus
  rw [h]
  simp

theorem plus_minus_neg (val : F) (s : String) (h : F.lt val (F.fin 0) = true) :
    plus_minus val s = " - " ++ s := by
  unfold plus_minus
  rw [F.lt_asymm_val h, h]
  simp

theorem signed_val_of_sign (val : F) (suffix : String) (pm : String)
    (hz : val ≠ F.fin 0)
    (hpm : ∀ s : String, plus_minus val s = pm ++ s) :
    signed_val val suffix =
      (if F.abs val = F.fin 1 then pm ++ suffix else pm ++ F.fmt (F.abs val) ++ suffix) := by
  unfold signed_val
  by_cases habs : F.abs val = F.fin 1
  · rw [F.beq_fin_true habs, if_pos rfl, if_pos habs, hpm]
  · rw [F.beq_fin_false habs, F.beq_fin_false hz]
    simp only [Bool.false_eq_true, if_false, Bool.not_false, if_true, if_neg habs]
    rw [hpm, String.append_assoc]


/-- C6: a non-leading term with coefficient `v` and suffix `s` renders as
" + " (resp. " - ") followed by `|v|` and `s` when `v` is positive (resp.
negative), omitting the numeral exactly when `|v| = 1`, and renders as the
empty string when `v` is zero; the constant term (`s_val_last`) follows
the same sign rules but always prints its numeral, so a unit constant
still prints its digit. -/
theorem term_rendering_protocol (val : F) (suffix : String) :
    (F.lt (F.fin 0) val = true →
      signed_val val suffix =
        (if F.abs val = F.fin 1 then " + " ++ suffix
         else " + " ++ F.fmt (F.abs val) ++ suffix)) ∧
    (F.lt val (F.fin 0) = true →
      signed_val val suffix =
        (if F.abs val = F.fin 1 then " - " ++ suffix
         else " - " ++ F.fmt (F.abs val) ++ suffix)) ∧
    (val = F.fin 0 → signed_val val suffix = "") ∧
    (F.lt (F.fin 0) val = true → s_val_last val = " + " ++ F.fmt (F.abs val)) ∧
    (F.lt val (F.fin 0) = true → s_val_last val = " - " ++ F.fmt (F.abs val)) ∧
    (val = F.fin 0 → s_val_last val = "") := by
  refine ⟨?_, ?_, ?_, ?_, ?_, ?_⟩
  · intro hlt
    exact signed_val_of_sign val suffix " + " (F.pos_ne_zero hlt)
      (fun s => plus_minus_pos val s hlt)
  · intro hlt
    exact signed_val_of_sign val suffix " - " (F.neg_ne_zero hlt)
      (fun s => plus_minus_neg val s hlt)
  · intro h
    subst h
    norm_num [signed_val, F.abs, F.beq]
  · intro hlt
    unfold s_val_last
    rw [F.beq_fin_false (F.pos_ne_zero hlt)]
    simp only [Bool.false_eq_true, if_false]
    exact plus_minus_pos val _ hlt
  · intro hlt
    unfold s_val_last
    rw [F.beq_fin_false (F.neg_ne_zero hlt)]
    simp only [Bool.false_eq_true, if_false]
    exact plus_minus_neg val _ hlt
  · intro h
    subst h
    norm_num [s_val_last, F.beq]

/-- Witness for C6 at `val = 2` (positive, non-unit) with suffix "x". -/
theorem term_rendering_protocol_witness :
    F.lt (F.fin 0) (F.fin 2) = true ∧
    signed_val (F.fin 2) "x" =
      (if F.abs (F.fin 2) = F.fin 1 then " + " ++ "x"
       else " + " ++ F.fmt (F.abs (F.fin 2)) ++ "x") :=
  ⟨by norm_num [F.lt], (term_rendering_protocol (F.fin 2) "x").1 (by norm_num [F.lt])⟩

/-- C2 (amended): the leading term's renderer drops a zero coefficient
entirely and never emits a " + "/" - " prefix token; a coefficient of
exactly 1 omits its numeral keeping the suffix; every other coefficient —
including -1 — prints its (signed) numeral followed by the suffix. -/
theorem display_header_rendering (val : F) (suffix : String) :
    (val = F.fin 0 → display_header val suffix = "") ∧
    (val = F.fin 1 → display_header val suffix = suffix) ∧
    (val ≠ F.fin 0 → val ≠ F.fin 1 → display_header val suffix = F.fmt val ++ suffix) := by
  refine ⟨?_, ?_, ?_⟩
  · intro h
    subst h
    norm_num [display_header, F.beq]
  · intro h
    subst h
    norm_num [display_header, F.beq]
  · intro h0 h1
    unfold display_header
    rw [F.beq_fin_false h0, F.beq_fin_false h1]
    simp

/-- Counterexample to C2 as stated: a leading coefficient of -1 with
suffix "x^2" renders as "-1x^2" (the numeral is not elided), not "-x^2". -/
theorem display_header_neg_unit_cex :
    display_header (F.fin (-1)) "x^2" = "-1x^2" ∧ "-1x^2" ≠ "-x^2" := by
  constructor
  · norm_num [display_header, F.beq, F.fmt]
    rfl
  · decide

/-- Witness for C2 at `val = 7`, suffix "x". -/
theorem display_header_rendering_witness :
    (F.fin 7 ≠ F.fin 0 ∧ F.fin 7 ≠ F.fin 1) ∧
    display_header (F.fin 7) "x" = F.fmt (F.fin 7) ++ "x" :=
  ⟨⟨by norm_num, by norm_num⟩,
    (display_header_rendering (F.fin 7) "x").2.2 (by norm_num) (by norm_num)⟩

/-- C7: the scalar base case of the `Polynomial` trait — a scalar
evaluates to itself for every `x`, has degree 0, has the 0 scalar as
derivative (for every value, finite or not), and `is_zero` holds exactly
for the zero value. -/
theorem scalar_polynomial_base_case (v x : F) :
    F.evaluate v x = v ∧ F.degree v = 0 ∧ F.derivative v = F.fin 0 ∧
    (F.is_zero v = true ↔ v = F.fin 0) :=
  ⟨rfl, rfl, rfl, F.beq_fin_iff v 0⟩


theorem sqrt_four_eq_two : Real.sqrt 4 = 2 := by
  rw [show (4:ℝ) = 2 ^ 2 by norm_num]
  exact Real.sqrt_sq (by norm_num)

/-- C5: `Linear::root` returns the unique root `-b/a` whenever `a ≠ 0`
(in particular `Linear{1,2}.root() = -2`), and signals "no solution"
(`none`) whenever `a = 0`, never dividing. -/
theorem linear_root_spec (p : Linear) :
    (p.a ≠ 0 → Linear.root p = some (-p.b / p.a)) ∧
    (p.a = 0 → Linear.root p = none) ∧
    Linear.root (Linear.mk 1 2) = some (-2) := by
  refine ⟨?_, ?_, ?_⟩
  · intro h
    simp [Linear.root, h]
  · intro h
    simp [Linear.root, h]
  · norm_num [Linear.root]

/-- Witness for C5 at `Linear{1,2}`. -/
theorem linear_root_spec_witness :
    (Linear.mk 1 2).a ≠ 0 ∧
    Linear.root (Linear.mk 1 2) = some (-(Linear.mk 1 2).b / (Linear.mk 1 2).a) :=
  ⟨by norm_num, (linear_root_spec (Linear.mk 1 2)).1 (by norm_num)⟩

/-- C8 (amended): for same-degree fixed-degree polynomials with finite
coefficients, `(P + Q) - Q = P` coefficient-by-coefficient in the exact
(rounding-free) model — for the scalar base case and for each
spec-modelled fixed-degree type. -/
theorem add_sub_roundtrip :
    (∀ x y : ℚ, F.sub (F.add (F.fin x) (F.fin y)) (F.fin y) = F.fin x) ∧
    (∀ P Q : Linear, Linear.sub (Linear.add P Q) Q = P) ∧
    (∀ P Q : Quadratic, Quadratic.sub (Quadratic.add P Q) Q = P) ∧
    (∀ P Q : Cubic, Cubic.sub (Cubic.add P Q) Q = P) ∧
    (∀ P Q : Quartic, Quartic.sub (Quartic.add P Q) Q = P) := by
  refine ⟨?_, ?_, ?_, ?_, ?_⟩
  · intro x y
    simp [F.add, F.sub]
  · intro P Q
    cases P
    cases Q
    simp [Linear.add, Linear.sub]
  · intro P Q
    cases P
    cases Q
    simp [Quadratic.add, Quadratic.sub]
  · intro P Q
    cases P
    cases Q
    simp [Cubic.add, Cubic.sub]
  · intro P Q
    cases P
    cases Q
    simp [Quartic.add, Quartic.sub]

/-- Counterexample to C8 as stated ("for all f64 coefficient values"):
for the degree-0 scalars `P = 1.0` and `Q = +∞`, `(P + Q) - Q` is `NaN`,
which is not `P` — neither structurally nor under `==`. -/
theorem add_sub_roundtrip_cex :
    F.sub (F.add (F.fin 1) F.inf) F.inf = F.nan ∧
    F.nan ≠ F.fin 1 ∧
    F.beq F.nan (F.fin 1) = false :=
  ⟨rfl, by decide, rfl⟩

/-- C4 (amended): `Quadratic::roots` succeeds exactly when `a ≠ 0` and the
discriminant is non-negative, returning
`[(-b + √disc)/(2a), (-b - √disc)/(2a)]` (the larger root first whenever
`a > 0`; for `a < 0` the order is reversed); a negative discriminant
signals "no real roots" and `a = 0` signals "no solution";
`Quadratic{1,4,3}.roots() = [-1, -3]`. -/
theorem quadratic_roots_spec (p : Quadratic) :
    (p.a = 0 → Quadratic.roots p = .error RootErr.noSolution) ∧
    (p.a ≠ 0 → Quadratic.disc p < 0 → Quadratic.roots p = .error RootErr.noRealRoots) ∧
    (p.a ≠ 0 → 0 ≤ Quadratic.disc p →
      Quadratic.roots p = .ok (((-p.b + Real.sqrt (Quadratic.disc p)) / (2 * p.a),
        (-p.b - Real.sqrt (Quadratic.disc p)) / (2 * p.a))) ∧
      (0 < p.a →
        ((-p.b - Real.sqrt (Quadratic.disc p)) / (2 * p.a) : ℝ) ≤
          (-p.b + Real.sqrt (Quadratic.disc p)) / (2 * p.a))) ∧
    ((∃ r, Quadratic.roots p = .ok r) ↔ (p.a ≠ 0 ∧ 0 ≤ Quadratic.disc p)) ∧
    Quadratic.roots (Quadratic.mk 1 4 3) = .ok ((-1, -3)) := by
  refine ⟨?_, ?_, ?_, ?_, ?_⟩
  · intro h
    simp [Quadratic.roots, h]
  · intro h hd
    simp [Quadratic.roots, h, hd]
  · intro h hd
    constructor
    · simp [Quadratic.roots, h, not_lt.mpr hd]
    · intro hpos
      have hs : (0:ℝ) ≤ Real.sqrt (Quadratic.disc p) := Real.sqrt_nonneg _
      have ha : (0:ℝ) < 2 * (p.a : ℝ) := by
        have : (0:ℝ) < (p.a : ℝ) := by exact_mod_cast hpos
        linarith
      exact (div_le_div_iff_of_pos_right ha).mpr (by linarith)
  · constructor
    · rintro ⟨r, hr⟩
      by_cases h : p.a = 0
      · simp [Quadratic.roots, h] at hr
      · by_cases hd : Quadratic.disc p < 0
        · simp [Quadratic.roots, h, hd] at hr
        · exact ⟨h, not_lt.mp hd⟩
    · rintro ⟨h, hd⟩
      exact ⟨((-p.b + Real.sqrt (Quadratic.disc p)) / (2 * p.a),
        (-p.b - Real.sqrt (Quadratic.disc p)) / (2 * p.a)),
        by simp [Quadratic.roots, h, not_lt.mpr hd]⟩
  · have hd : Quadratic.disc (Quadratic.mk 1 4 3) = 4 := by
      norm_num [Quadratic.disc]
    have ha : (Quadratic.mk 1 4 3).a = 1 := rfl
    unfold Quadratic.roots
    rw [if_neg (by norm_num), if_neg (by rw [hd]; norm_num), hd]
    norm_num [sqrt_four_eq_two]

/-- Counterexample to C4's "larger root first" as an unconditional rule:
for `Quadratic{-1, 0, 1}` the returned pair is `[-1, 1]` — the larger
root is second, because dividing by the negative `2a` reverses the
order. -/
theorem quadratic_roots_order_cex :
    Quadratic.roots (Quadratic.mk (-1) 0 1) = .ok ((-1, 1)) ∧ ((-1:ℝ) < 1) := by
  constructor
  · have hd : Quadratic.disc (Quadratic.mk (-1) 0 1) = 4 := by
      norm_num [Quadratic.disc]
    unfold Quadratic.roots
    rw [if_neg (by norm_num), if_neg (by rw [hd]; norm_num), hd]
    norm_num [sqrt_four_eq_two]
  · norm_num

/-- Witness for C4 at the degenerate `Quadratic{0,1,2}`. -/
theorem quadratic_roots_spec_witness :
    (Quadratic.mk 0 1 2).a = 0 ∧
    Quadratic.roots (Quadratic.mk 0 1 2) = .error RootErr.noSolution :=
  ⟨rfl, (quadratic_roots_spec (Quadratic.mk 0 1 2)).1 rfl⟩

end Ptools
